import Mathlib

/-!
Verification of the content-pipeline server (HTTP endpoint, Suno browser
automation, audio merge, image generation, video creation).

Each JavaScript source function is shallowly embedded as an executable Lean
definition.  External effects (pipeline stages, the browser, the filesystem,
the ffmpeg encoder) are modelled by explicit oracles and by returning the
calls that would be issued, so that control flow, error propagation and the
produced paths can be reasoned about.
-/

namespace Cold

/-! ### JavaScript values reaching the handler

`req.body` is parsed JSON; the handler only destructures the fields
`prompts` and `imagePrompt` and inspects them with `Array.isArray`,
`.length`, `typeof`, and `.trim()`. -/

inductive JsVal where
  | undef
  | null
  | bool (b : Bool)
  | num (n : Int)
  | str (s : String)
  | arr (elems : List JsVal)

/-- The two fields the handler destructures from `req.body`. -/
structure ReqBody where
  prompts : JsVal
  imagePrompt : JsVal

/-- `Array.isArray(v)` -/
def JsVal.isArray : JsVal → Bool
  | .arr _ => true
  | _ => false

/-- `v.length` of an array (only consulted when `isArray` holds). -/
def JsVal.arrLen : JsVal → Nat
  | .arr xs => xs.length
  | _ => 0

/-- The first validation guard:
`!Array.isArray(prompts) || prompts.length < 5`. -/
def promptsInvalid (p : JsVal) : Bool :=
  !p.isArray || p.arrLen < 5

/-- `s.trim()`: drop leading and trailing whitespace. -/
def jsTrim (s : String) : String :=
  String.mk (((s.data.dropWhile Char.isWhitespace).reverse.dropWhile
    Char.isWhitespace).reverse)

/-- The second validation guard:
`typeof imagePrompt !== "string" || !imagePrompt.trim()`
(a trimmed empty string is falsy). -/
def imagePromptInvalid : JsVal → Bool
  | .str s => jsTrim s = ""
  | _ => true

/-! ### The pipeline and the POST handler -/

/-- The four pipeline stages, in the source's call order. -/
inductive Stage where
  | suno
  | merge
  | image
  | video
deriving DecidableEq

/-- JSON response bodies produced by the handler. -/
inductive RespBody where
  | errJson (error : String)
  | okJson (status message : String)
deriving DecidableEq

structure Response where
  status : Nat
  body : RespBody
deriving DecidableEq

/-- The `try` block:
`await sunoAutomation(prompts); await mergeAudioFiles();
await generateImage(imagePrompt); await createVideo();` —
each stage runs only after the previous one returned without throwing.
Returns the stages that were invoked and the first thrown error, if any.
The oracle `o` gives each stage's outcome. -/
def runPipeline (o : Stage → Except String Unit) : List Stage × Option String :=
  match o .suno with
  | .error e => ([.suno], some e)
  | .ok _ =>
    match o .merge with
    | .error e => ([.suno, .merge], some e)
    | .ok _ =>
      match o .image with
      | .error e => ([.suno, .merge, .image], some e)
      | .ok _ =>
        match o .video with
        | .error e => ([.suno, .merge, .image, .video], some e)
        | .ok _ => ([.suno, .merge, .image, .video], none)

/-- The `app.post("/", ...)` handler: validation guards, then the pipeline
inside `try/catch`.  Returns the HTTP response together with the list of
stages that were invoked. -/
def handlePost (b : ReqBody) (o : Stage → Except String Unit) :
    Response × List Stage :=
  if promptsInvalid b.prompts then
    ({ status := 400, body := .errJson "You must provide 5 audio prompts." }, [])
  else if imagePromptInvalid b.imagePrompt then
    ({ status := 400, body := .errJson "Missing or invalid imagePrompt." }, [])
  else
    match runPipeline o with
    | (stages, some _) =>
      ({ status := 500, body := .errJson "Pipeline failed. See logs for details." }, stages)
    | (stages, none) =>
      ({ status := 200, body := .okJson "success" "Video created!" }, stages)

/-! ### slugify (sunoAutomation.js)

`text.toLowerCase().replace(/[^a-z0-9]/g, "_").replace(/_+/g, "_").substring(0, 30)` -/

/-- `text.toLowerCase()`: lowercases each character. -/
def toLowerCase (s : String) : String := String.mk (s.data.map Char.toLower)

/-- A character the regex `[^a-z0-9]` does NOT match. -/
def isSlugChar (c : Char) : Bool :=
  (decide ('a' ≤ c) && decide (c ≤ 'z')) || (decide ('0' ≤ c) && decide (c ≤ '9'))

/-- One step of `replace(/[^a-z0-9]/g, "_")`. -/
def slugCharMap (c : Char) : Char :=
  if isSlugChar c then c else '_'

/-- `replace(/_+/g, "_")`: each maximal run of underscores collapses to one. -/
def squeezeUnderscores : List Char → List Char
  | [] => []
  | [c] => [c]
  | a :: b :: rest =>
    if a = '_' && b = '_' then squeezeUnderscores (b :: rest)
    else a :: squeezeUnderscores (b :: rest)

def slugify (text : String) : String :=
  String.mk ((squeezeUnderscores ((toLowerCase text).data.map slugCharMap)).take 30)

/-! ### sunoAutomation (sunoAutomation.js, first revision)

The browser interactions of one track iteration (navigate, type prompt,
toggle instrumental, set title, click Create, wait, open library, click the
menu / Download / MP3 options) all sit inside one per-track `try` block;
any throw there is caught, logged, and the loops continue.  The oracle
`outcome` gives the result of that whole per-track body. -/

/-- Observable actions of `sunoAutomation`, in execution order. -/
inductive SunoAction where
  | ensureAudioFolder
  | launchBrowser
  | newPage
  | setCookie
  | processTrack (trackName : String) (ok : Bool)
  | closeBrowser
deriving DecidableEq

/-- Whether an `Except` result is a success. -/
def exceptOk : Except String Unit → Bool
  | .ok _ => true
  | .error _ => false

/-- The nested loops
`for (const prompt of prompts) for (let i = 1; i <= 2; i++) try {...} catch {log}`:
every iteration attempts its track exactly once; a caught failure is
recorded and the loop moves on. -/
def sunoTrackLoop (outcome : String → Except String Unit)
    (prompts : List String) : List SunoAction :=
  prompts.flatMap fun prompt =>
    [1, 2].map fun i =>
      let trackName := slugify prompt ++ "-Track" ++ toString i
      SunoAction.processTrack trackName (exceptOk (outcome trackName))

/-- The track names the two nested loops generate, in order. -/
def sunoPlannedTracks (prompts : List String) : List String :=
  prompts.flatMap fun prompt =>
    [1, 2].map fun i => slugify prompt ++ "-Track" ++ toString i

/-- Track name of a `processTrack` action (and a marker otherwise). -/
def SunoAction.name : SunoAction → Option String
  | .processTrack n _ => some n
  | _ => none

/-- `sunoAutomation(prompts)`: ensure the audio folder, read
`process.env.SUNO_COOKIE` (throwing when it is falsy), launch the browser,
open a page, set the session cookie, run the track loops, close the
browser.  The outer `catch` logs and rethrows, so the thrown error is the
function's result.  `envCookie` is the environment variable (`none` when
absent); returns the performed actions and the overall outcome. -/
def sunoAutomation :
    Option String → (String → Except String Unit) → List String →
    List SunoAction × Except String Unit
  | none, _, _ =>
    ([SunoAction.ensureAudioFolder], .error "SUNO_COOKIE not provided")
  | some c, outcome, prompts =>
    if c = "" then
      ([SunoAction.ensureAudioFolder], .error "SUNO_COOKIE not provided")
    else
      (([SunoAction.ensureAudioFolder]
          ++ [SunoAction.launchBrowser, SunoAction.newPage, SunoAction.setCookie])
         ++ sunoTrackLoop outcome prompts ++ [SunoAction.closeBrowser],
       .ok ())

/-! ### Fixed filesystem paths

All modules live in the same source directory, so every `__dirname` below
denotes the same directory, written `dirname`. -/

def dirname : String := "/app/src"

/-- `path.join(a, b)` for the absolute-prefix joins used here. -/
def pathJoin (a b : String) : String := a ++ "/" ++ b

/-- mergeAudio.js: `AUDIO_DIR = path.join(__dirname, "output", "audio")`. -/
def AUDIO_DIR : String := pathJoin (pathJoin dirname "output") "audio"

/-- mergeAudio.js: `OUTPUT_FILE = path.join(__dirname, "output", "merged_audio.mp3")`. -/
def OUTPUT_FILE : String := pathJoin (pathJoin dirname "output") "merged_audio.mp3"

/-! ### generateImage (generateImage.js) -/

/-- The JSON payload posted to the image API. -/
structure ImageRequest where
  text : String
  cfg_scale : Nat
  height : Nat
  width : Nat
  samples : Nat
  steps : Nat
deriving DecidableEq

/-- `generateImage(prompt)`: posts the request and writes the decoded image
to `outputPath = path.join(__dirname, "output", "image.png")`.  Returns the
API request together with the path written. -/
def generateImage (prompt : String) : ImageRequest × String :=
  ({ text := prompt, cfg_scale := 8, height := 512, width := 896,
     samples := 1, steps := 30 },
   pathJoin (pathJoin dirname "output") "image.png")

/-! ### mergeAudioFiles (mergeAudio.js) -/

/-- The `ffmpeg` merge invocation: its ordered inputs and its output file. -/
structure FfmpegMergeCall where
  inputs : List String
  outputPath : String
deriving DecidableEq

/-- `file.endsWith(".mp3")`. -/
def jsEndsWith (s suffix : String) : Bool := suffix.data.isSuffixOf s.data

/-- Lexicographic comparison of character lists, the order in which
`Array.prototype.sort()` without a comparator sorts strings (code-unit
lexicographic). -/
def charListLe : List Char → List Char → Bool
  | [], _ => true
  | _ :: _, [] => false
  | a :: as, b :: bs =>
    if a < b then true
    else if b < a then false
    else charListLe as bs

/-- The string order used by the default `sort()`. -/
def jsStrLe (a b : String) : Bool := charListLe a.data b.data

/-- `mergeAudioFiles()`: read the audio directory, keep names ending in
".mp3", sort them (`Array.prototype.sort`, lexicographic), join each onto
`AUDIO_DIR`, throw when none remain, otherwise merge them in that order
into `OUTPUT_FILE`.  `dirListing` is the result of `fs.readdir(AUDIO_DIR)`. -/
def mergeAudioFiles (dirListing : List String) : Except String FfmpegMergeCall :=
  let mp3Files :=
    ((List.insertionSort (fun a b => jsStrLe a b = true)
        (dirListing.filter fun f => jsEndsWith f ".mp3")).map
      fun f => pathJoin AUDIO_DIR f)
  if mp3Files.length = 0 then
    .error "No audio tracks found to merge."
  else
    .ok { inputs := mp3Files, outputPath := OUTPUT_FILE }

/-! ### createVideo (createVideo.js) -/

/-- The `ffmpeg` video invocation: image input, audio input, output file. -/
structure FfmpegVideoCall where
  imageInput : String
  audioInput : String
  outputPath : String
deriving DecidableEq

def createVideo_imagePath : String := pathJoin (pathJoin dirname "output") "image.png"
def createVideo_audioPath : String := pathJoin (pathJoin dirname "output") "merged_audio.mp3"
def createVideo_videoPath : String := pathJoin (pathJoin dirname "output") "final_video.mp4"

/-- `createVideo()`: check `fs.existsSync` on the image then on the merged
audio, throwing on the missing one; only then run the encoder.  `fsExists`
models `fs.existsSync`; the `ok` value is the encoder call issued. -/
def createVideo (fsExists : String → Bool) : Except String FfmpegVideoCall :=
  if !fsExists createVideo_imagePath then
    .error "Image file not found."
  else if !fsExists createVideo_audioPath then
    .error "Merged audio file not found."
  else
    .ok { imageInput := createVideo_imagePath,
          audioInput := createVideo_audioPath,
          outputPath := createVideo_videoPath }

/-! ### Helper lemmas about slugify -/

/-- No two consecutive underscores occur in the list. -/
def noDouble : List Char → Bool
  | [] => true
  | [_] => true
  | a :: b :: rest => !(a = '_' && b = '_') && noDouble (b :: rest)

theorem squeeze_all (p : Char → Bool) :
    ∀ l : List Char, l.all p = true → (squeezeUnderscores l).all p = true
  | [] => fun h => h
  | [c] => fun h => h
  | a :: b :: rest => by
    intro h
    simp only [List.all_cons, Bool.and_eq_true] at h
    unfold squeezeUnderscores
    split
    · exact squeeze_all p (b :: rest) (by simp [List.all_cons, h.2.1, h.2.2])
    · simp only [List.all_cons, Bool.and_eq_true]
      exact ⟨h.1, squeeze_all p (b :: rest) (by simp [List.all_cons, h.2.1, h.2.2])⟩

theorem squeeze_head : ∀ (x : Char) (xs : List Char),
    ∃ t, squeezeUnderscores (x :: xs) = x :: t
  | _, [] => ⟨[], rfl⟩
  | x, y :: ys => by
    unfold squeezeUnderscores
    split
    · rename_i hxy
      simp only [Bool.and_eq_true, decide_eq_true_eq] at hxy
      obtain ⟨t, ht⟩ := squeeze_head y ys
      exact ⟨t, by rw [ht, hxy.1, hxy.2]⟩
    · exact ⟨squeezeUnderscores (y :: ys), rfl⟩

theorem noDouble_squeeze : ∀ l : List Char, noDouble (squeezeUnderscores l) = true
  | [] => rfl
  | [_] => rfl
  | a :: b :: rest => by
    unfold squeezeUnderscores
    split
    · exact noDouble_squeeze (b :: rest)
    · rename_i hab
      obtain ⟨t, ht⟩ := squeeze_head b rest
      rw [ht]
      have ih := noDouble_squeeze (b :: rest)
      rw [ht] at ih
      simp only [noDouble, Bool.and_eq_true]
      have hnot : ¬(a = '_' ∧ b = '_') := by simpa using hab
      exact ⟨by simpa using not_and_or.mp hnot, ih⟩

theorem noDouble_take : ∀ (l : List Char) (n : Nat),
    noDouble l = true → noDouble (l.take n) = true
  | [], _ => fun _ => by simp [noDouble]
  | [c], n => fun _ => by cases n <;> simp [noDouble]
  | a :: b :: rest, 0 => fun _ => rfl
  | a :: b :: rest, 1 => fun _ => rfl
  | a :: b :: rest, n + 2 => by
    intro h
    simp only [noDouble, Bool.and_eq_true] at h
    simp only [List.take_succ_cons, noDouble, Bool.and_eq_true]
    exact ⟨h.1, noDouble_take (b :: rest) (n + 1) h.2⟩

/-- C8: `slugify` produces at most 30 characters, drawn from lowercase
letters, digits and underscore, with no two consecutive underscores. -/
theorem slugify_le30_safe_chars (t : String) :
    (slugify t).length ≤ 30 ∧
    (slugify t).data.all (fun c => isSlugChar c || c = '_') = true ∧
    noDouble (slugify t).data = true := by
  refine ⟨?_, ?_, ?_⟩
  · show ((squeezeUnderscores ((toLowerCase t).data.map slugCharMap)).take 30).length ≤ 30
    rw [List.length_take]
    exact min_le_left _ _
  · show ((squeezeUnderscores ((toLowerCase t).data.map slugCharMap)).take 30).all _ = true
    have hmap : ((toLowerCase t).data.map slugCharMap).all
        (fun c => isSlugChar c || c = '_') = true := by
      rw [List.all_eq_true]
      intro x hx
      rw [List.mem_map] at hx
      obtain ⟨c, _, rfl⟩ := hx
      unfold slugCharMap
      split <;> simp_all
    have hsq := squeeze_all _ _ hmap
    rw [List.all_eq_true] at hsq ⊢
    exact fun x hx => hsq x (List.mem_of_mem_take hx)
  · exact noDouble_take _ 30 (noDouble_squeeze _)

/-! ### Helper lemmas about the suno track loop -/

/-- The sequence of track names attempted by the loops is exactly the
planned sequence, whatever the per-track outcomes are. -/
theorem sunoTrackLoop_names (outcome : String → Except String Unit) :
    ∀ prompts : List String,
      (sunoTrackLoop outcome prompts).filterMap SunoAction.name
        = sunoPlannedTracks prompts
  | [] => rfl
  | p :: rest => by
    have ih := sunoTrackLoop_names outcome rest
    simp only [sunoTrackLoop, sunoPlannedTracks, List.flatMap_cons,
      List.filterMap_append] at ih ⊢
    rw [ih]
    simp [SunoAction.name]

/-- An always-failing per-track outcome. -/
def failOutcome : String → Except String Unit :=
  fun _ => Except.error "generation failed"

/-- An always-succeeding per-track outcome. -/
def okOutcome : String → Except String Unit :=
  fun _ => Except.ok ()

/-- C2 counterexample: on prompt list ["chill"] with every per-track body
failing, the failed operation for track "chill-Track1" appears exactly once
in the action trace — it is never retried. -/
theorem suno_no_retry_cex :
    SunoAction.processTrack "chill-Track1" false
        ∈ (sunoAutomation (some "cookie") failOutcome ["chill"]).1 ∧
    ((sunoAutomation (some "cookie") failOutcome ["chill"]).1.filter
        (fun a => a.name = some "chill-Track1")).length = 1 := by
  constructor
  · decide
  · rfl

/-- C2 (amended): a failed per-track operation is attempted exactly once —
for every track name, the number of attempts in the trace equals the number
of planned occurrences of that name, independently of which attempts fail. -/
theorem suno_failed_attempt_not_retried (outcome : String → Except String Unit)
    (name : String) : ∀ prompts : List String,
    ((sunoTrackLoop outcome prompts).filter
        (fun a => a.name = some name)).length
      = ((sunoPlannedTracks prompts).filter (fun n => n = name)).length
  | [] => rfl
  | p :: rest => by
    have ih := suno_failed_attempt_not_retried outcome name rest
    simp only [sunoTrackLoop, sunoPlannedTracks, List.flatMap_cons,
      List.filter_append, List.length_append] at ih ⊢
    rw [ih]
    by_cases e1 : slugify p ++ "-Track" ++ toString 1 = name <;>
      by_cases e2 : slugify p ++ "-Track" ++ toString 2 = name <;>
        simp [SunoAction.name, List.filter, e1, e2]

/-- C5: per-track failures are swallowed: for any cookie and any pattern of
per-track failures, every planned track of every prompt is still attempted,
in order, and the stage itself finishes without throwing. -/
theorem suno_per_track_failure_skips (cookie : String)
    (outcome : String → Except String Unit) (prompts : List String)
    (hc : ¬cookie = "") :
    (sunoAutomation (some cookie) outcome prompts).1.filterMap SunoAction.name
        = sunoPlannedTracks prompts ∧
    (sunoAutomation (some cookie) outcome prompts).2 = Except.ok () := by
  have hrw : sunoAutomation (some cookie) outcome prompts
      = (([SunoAction.ensureAudioFolder]
          ++ [SunoAction.launchBrowser, SunoAction.newPage, SunoAction.setCookie])
          ++ sunoTrackLoop outcome prompts ++ [SunoAction.closeBrowser],
         Except.ok ()) := by
    simp only [sunoAutomation, if_neg hc]
  rw [hrw]
  exact ⟨by simp [List.filterMap_append, SunoAction.name, sunoTrackLoop_names], rfl⟩

/-- C5 witness at a concrete cookie, failure pattern and prompt list. -/
theorem suno_per_track_failure_skips_witness :
    (sunoAutomation (some "c") failOutcome ["lofi", "rain"]).1.filterMap
        SunoAction.name = sunoPlannedTracks ["lofi", "rain"] ∧
    (sunoAutomation (some "c") failOutcome ["lofi", "rain"]).2 = Except.ok () :=
  suno_per_track_failure_skips "c" failOutcome ["lofi", "rain"] (by decide)

/-- C6 counterexample: with the cookie absent, `sunoAutomation` does throw
"SUNO_COOKIE not provided" before launching the browser, but only after
performing an action: the trace is nonempty, containing the
ensure-audio-folder step. -/
theorem suno_cookie_cex :
    (sunoAutomation none okOutcome ["lofi"]).2
        = Except.error "SUNO_COOKIE not provided" ∧
    (sunoAutomation none okOutcome ["lofi"]).1 ≠ [] ∧
    SunoAction.ensureAudioFolder ∈ (sunoAutomation none okOutcome ["lofi"]).1 := by
  refine ⟨rfl, by simp [sunoAutomation], by simp [sunoAutomation]⟩

/-- C6 (amended): when the SUNO_COOKIE environment variable is absent,
`sunoAutomation` throws "SUNO_COOKIE not provided" after ensuring the audio
folder but before launching the browser, opening a page, setting the
session cookie, or attempting any track, for every list of prompts. -/
theorem suno_cookie_guard (outcome : String → Except String Unit)
    (prompts : List String) :
    sunoAutomation none outcome prompts
        = ([SunoAction.ensureAudioFolder], Except.error "SUNO_COOKIE not provided") ∧
    SunoAction.launchBrowser ∉ (sunoAutomation none outcome prompts).1 := by
  refine ⟨rfl, ?_⟩
  simp [sunoAutomation]

/-! ### Theorems about the POST handler -/

/-- An all-stages-succeed pipeline oracle. -/
def okStages : Stage → Except String Unit := fun _ => Except.ok ()

/-- An all-stages-fail pipeline oracle. -/
def failStages : Stage → Except String Unit := fun _ => Except.error "boom"

/-- A request body passing both validation guards. -/
def validBody : ReqBody :=
  { prompts := JsVal.arr [.str "a", .str "b", .str "c", .str "d", .str "e"],
    imagePrompt := JsVal.str "sunset over the sea" }

/-- C1: when `prompts` is not an array of at least 5 elements, or
`imagePrompt` is not a string or is empty after trimming, the endpoint
answers 400 with an error JSON and invokes no pipeline stage. -/
theorem handlePost_validation (b : ReqBody) (o : Stage → Except String Unit)
    (h : promptsInvalid b.prompts = true ∨ imagePromptInvalid b.imagePrompt = true) :
    (handlePost b o).1.status = 400 ∧
    (∃ msg, (handlePost b o).1.body = RespBody.errJson msg) ∧
    (handlePost b o).2 = [] := by
  unfold handlePost
  rcases h with h | h
  · simp [h]
  · by_cases hp : promptsInvalid b.prompts <;> simp [hp, h]

/-- C1 witness: a body whose `prompts` is not an array. -/
theorem handlePost_validation_witness :
    (handlePost { prompts := JsVal.null, imagePrompt := JsVal.str "x" } okStages).1.status = 400 ∧
    (∃ msg, (handlePost { prompts := JsVal.null, imagePrompt := JsVal.str "x" } okStages).1.body
        = RespBody.errJson msg) ∧
    (handlePost { prompts := JsVal.null, imagePrompt := JsVal.str "x" } okStages).2 = [] :=
  handlePost_validation _ okStages (Or.inl rfl)

/-- C3: past validation, the stages run in the fixed order suno, merge,
image, video — the invoked list is an initial segment of that order, each
stage is invoked exactly when all earlier stages succeeded — and the
response is 200 with the success JSON precisely when all four stages
complete without throwing. -/
theorem handlePost_sequential (b : ReqBody) (o : Stage → Except String Unit)
    (hp : promptsInvalid b.prompts = false)
    (hi : imagePromptInvalid b.imagePrompt = false) :
    (∃ rest, [Stage.suno, Stage.merge, Stage.image, Stage.video]
        = (handlePost b o).2 ++ rest) ∧
    Stage.suno ∈ (handlePost b o).2 ∧
    (Stage.merge ∈ (handlePost b o).2 ↔ o Stage.suno = Except.ok ()) ∧
    (Stage.image ∈ (handlePost b o).2 ↔
        o Stage.suno = Except.ok () ∧ o Stage.merge = Except.ok ()) ∧
    (Stage.video ∈ (handlePost b o).2 ↔
        o Stage.suno = Except.ok () ∧ o Stage.merge = Except.ok () ∧
        o Stage.image = Except.ok ()) ∧
    ((handlePost b o).1
        = { status := 200, body := RespBody.okJson "success" "Video created!" } ↔
        o Stage.suno = Except.ok () ∧ o Stage.merge = Except.ok () ∧
        o Stage.image = Except.ok () ∧ o Stage.video = Except.ok ()) := by
  unfold handlePost
  simp only [hp, Bool.false_eq_true, if_false, hi]
  cases h1 : o Stage.suno with
  | error e1 => simp [runPipeline, h1]
  | ok u1 =>
    cases u1
    cases h2 : o Stage.merge with
    | error e2 => simp [runPipeline, h1, h2]
    | ok u2 =>
      cases u2
      cases h3 : o Stage.image with
      | error e3 => simp [runPipeline, h1, h2, h3]
      | ok u3 =>
        cases u3
        cases h4 : o Stage.video with
        | error e4 => simp [runPipeline, h1, h2, h3, h4]
        | ok u4 =>
          cases u4
          simp [runPipeline, h1, h2, h3, h4]

/-- C3 witness: a valid body with every stage succeeding. -/
theorem handlePost_sequential_witness :
    ∃ rest, [Stage.suno, Stage.merge, Stage.image, Stage.video]
        = (handlePost validBody okStages).2 ++ rest :=
  (handlePost_sequential validBody okStages rfl rfl).1

/-- C4: past validation, if any pipeline stage throws, the endpoint
answers 500 with the one generic failure JSON, whatever the stage and
whatever the error. -/
theorem handlePost_failure_500 (b : ReqBody) (o : Stage → Except String Unit)
    (hp : promptsInvalid b.prompts = false)
    (hi : imagePromptInvalid b.imagePrompt = false)
    (hfail : ∃ s e, o s = Except.error e) :
    (handlePost b o).1
      = { status := 500,
          body := RespBody.errJson "Pipeline failed. See logs for details." } := by
  unfold handlePost
  simp only [hp, Bool.false_eq_true, if_false, hi]
  cases h1 : o Stage.suno with
  | error e1 => simp [runPipeline, h1]
  | ok u1 =>
    cases u1
    cases h2 : o Stage.merge with
    | error e2 => simp [runPipeline, h1, h2]
    | ok u2 =>
      cases u2
      cases h3 : o Stage.image with
      | error e3 => simp [runPipeline, h1, h2, h3]
      | ok u3 =>
        cases u3
        cases h4 : o Stage.video with
        | error e4 => simp [runPipeline, h1, h2, h3, h4]
        | ok u4 =>
          cases u4
          exfalso
          obtain ⟨s, e, hs⟩ := hfail
          cases s
          · rw [h1] at hs; exact Except.noConfusion hs
          · rw [h2] at hs; exact Except.noConfusion hs
          · rw [h3] at hs; exact Except.noConfusion hs
          · rw [h4] at hs; exact Except.noConfusion hs

/-- C4 witness: a valid body where the suno stage throws. -/
theorem handlePost_failure_500_witness :
    (handlePost validBody failStages).1
      = { status := 500,
          body := RespBody.errJson "Pipeline failed. See logs for details." } :=
  handlePost_failure_500 validBody failStages rfl rfl ⟨Stage.suno, "boom", rfl⟩

/-! ### Theorems about the file stages -/

theorem charListLe_total : ∀ as bs : List Char,
    charListLe as bs = true ∨ charListLe bs as = true
  | [], _ => Or.inl rfl
  | _ :: _, [] => Or.inr rfl
  | a :: as, b :: bs => by
    unfold charListLe
    rcases lt_trichotomy a b with h | h | h
    · left; simp [h]
    · subst h
      simpa [lt_irrefl] using charListLe_total as bs
    · right; simp [h]

theorem charListLe_trans : ∀ as bs cs : List Char,
    charListLe as bs = true → charListLe bs cs = true → charListLe as cs = true
  | [], _, _ => fun _ _ => rfl
  | _ :: _, [], _ => fun h _ => by simp [charListLe] at h
  | _ :: _, _ :: _, [] => fun _ h => by simp [charListLe] at h
  | a :: as, b :: bs, c :: cs => by
    intro h1 h2
    unfold charListLe at h1 h2 ⊢
    by_cases hab : a < b
    · by_cases hbc : b < c
      · simp [lt_trans hab hbc]
      · by_cases hcb : c < b
        · simp [hbc, hcb] at h2
        · have hbceq : b = c := le_antisymm (not_lt.mp hcb) (not_lt.mp hbc)
          subst hbceq
          simp [hab]
    · by_cases hba : b < a
      · simp [hab, hba] at h1
      · have habeq : a = b := le_antisymm (not_lt.mp hba) (not_lt.mp hab)
        subst habeq
        simp only [lt_irrefl, if_false] at h1
        by_cases hac : a < c
        · simp [hac]
        · by_cases hca : c < a
          · simp [hac, hca] at h2
          · simp only [hac, hca, if_false] at h2 ⊢
            exact charListLe_trans as bs cs h1 h2

/-- C7: the artifact paths are fixed constants: for every prompt, every
directory listing and every filesystem state, generateImage writes to the
same image path, mergeAudioFiles merges into the same merged-audio path,
and createVideo writes the same video path. -/
theorem artifact_paths_fixed (prompt : String) (listing : List String)
    (fsExists : String → Bool) (mc : FfmpegMergeCall) (vc : FfmpegVideoCall)
    (hm : mergeAudioFiles listing = Except.ok mc)
    (hv : createVideo fsExists = Except.ok vc) :
    (generateImage prompt).2 = "/app/src/output/image.png" ∧
    mc.outputPath = "/app/src/output/merged_audio.mp3" ∧
    vc.outputPath = "/app/src/output/final_video.mp4" := by
  refine ⟨rfl, ?_, ?_⟩
  · simp only [mergeAudioFiles] at hm
    split at hm
    · exact absurd hm (by simp)
    · cases hm; rfl
  · simp only [createVideo] at hv
    split at hv
    · exact absurd hv (by simp)
    · split at hv
      · exact absurd hv (by simp)
      · cases hv; rfl

/-- C7 witness at a concrete prompt, listing and filesystem. -/
theorem artifact_paths_fixed_witness :
    (generateImage "waves").2 = "/app/src/output/image.png" ∧
    ({ inputs := [pathJoin AUDIO_DIR "a.mp3"], outputPath := OUTPUT_FILE } :
        FfmpegMergeCall).outputPath = "/app/src/output/merged_audio.mp3" ∧
    ({ imageInput := createVideo_imagePath, audioInput := createVideo_audioPath,
        outputPath := createVideo_videoPath } :
        FfmpegVideoCall).outputPath = "/app/src/output/final_video.mp4" :=
  artifact_paths_fixed "waves" ["a.mp3"] (fun _ => true) _ _ rfl rfl

/-- C9: mergeAudioFiles throws "No audio tracks found to merge." exactly
when the listing holds no ".mp3" file (and then issues no merge call), and
otherwise merges precisely the ".mp3" files, in ascending lexicographic
filename order, each joined onto the audio directory. -/
theorem mergeAudioFiles_spec (listing : List String) :
    (mergeAudioFiles listing = Except.error "No audio tracks found to merge."
        ↔ ∀ f ∈ listing, jsEndsWith f ".mp3" = false) ∧
    (∀ mc, mergeAudioFiles listing = Except.ok mc →
      ∃ names : List String, names.Perm (listing.filter fun f => jsEndsWith f ".mp3") ∧
        names.Pairwise (fun a b => jsStrLe a b = true) ∧
        mc.inputs = names.map (pathJoin AUDIO_DIR)) := by
  constructor
  · simp only [mergeAudioFiles]
    split
    · rename_i hlen
      rw [List.length_map, List.length_insertionSort, List.length_eq_zero,
        List.filter_eq_nil_iff] at hlen
      exact iff_of_true rfl (fun f hf => by simpa using hlen f hf)
    · rename_i hlen
      refine iff_of_false (by simp) (fun hall => hlen ?_)
      rw [List.length_map, List.length_insertionSort, List.length_eq_zero,
        List.filter_eq_nil_iff]
      intro f hf
      simp [hall f hf]
  · intro mc hm
    simp only [mergeAudioFiles] at hm
    split at hm
    · exact absurd hm (by simp)
    · cases hm
      refine ⟨List.insertionSort (fun a b => jsStrLe a b = true)
          (listing.filter fun f => jsEndsWith f ".mp3"),
        List.perm_insertionSort _ _, ?_, rfl⟩
      haveI : IsTotal String (fun a b => jsStrLe a b = true) :=
        ⟨fun a b => charListLe_total a.data b.data⟩
      haveI : IsTrans String (fun a b => jsStrLe a b = true) :=
        ⟨fun a b c => charListLe_trans a.data b.data c.data⟩
      exact List.sorted_insertionSort _ _

/-- C9 witness at a concrete directory listing. -/
theorem mergeAudioFiles_spec_witness :
    (mergeAudioFiles ["b.mp3", "a.mp3", "cover.png"]
        = Except.error "No audio tracks found to merge."
        ↔ ∀ f ∈ (["b.mp3", "a.mp3", "cover.png"] : List String),
            jsEndsWith f ".mp3" = false) ∧
    (∀ mc, mergeAudioFiles ["b.mp3", "a.mp3", "cover.png"] = Except.ok mc →
      ∃ names : List String,
        names.Perm ((["b.mp3", "a.mp3", "cover.png"] : List String).filter
          fun f => jsEndsWith f ".mp3") ∧
        names.Pairwise (fun a b => jsStrLe a b = true) ∧
        mc.inputs = names.map (pathJoin AUDIO_DIR)) :=
  mergeAudioFiles_spec ["b.mp3", "a.mp3", "cover.png"]

/-- C10: createVideo throws "Image file not found." when the image is
missing, throws "Merged audio file not found." when the image exists but
the merged audio is missing, and issues the encoder call exactly when both
inputs exist. -/
theorem createVideo_spec (fsExists : String → Bool) :
    (fsExists createVideo_imagePath = false →
        createVideo fsExists = Except.error "Image file not found.") ∧
    (fsExists createVideo_imagePath = true →
      fsExists createVideo_audioPath = false →
        createVideo fsExists = Except.error "Merged audio file not found.") ∧
    ((∃ vc, createVideo fsExists = Except.ok vc)
        ↔ fsExists createVideo_imagePath = true ∧
          fsExists createVideo_audioPath = true) := by
  by_cases h1 : fsExists createVideo_imagePath <;>
    by_cases h2 : fsExists createVideo_audioPath <;>
      simp [createVideo, h1, h2]

/-- C10 witness: an empty filesystem makes createVideo fail on the image. -/
theorem createVideo_spec_witness :
    createVideo (fun _ => false) = Except.error "Image file not found." :=
  (createVideo_spec (fun _ => false)).1 rfl

end Cold
